import Mathlib

/-!
Verification of the pptx2beamer converter (src/pptx2beamer.py) against its
natural-language specification.

The Python source is shallowly embedded below.  XML documents are modelled at
the level the script consumes them: a slide part is a list of shapes and a
list of pictures whose attribute values are already parsed, and a part that
the XML parser rejects is represented by an explicit `malformed`/`none`
constructor.  Python strings are Lean `String`s; Python integers are `Int`
(or `Nat` where the source guarantees naturals); true division of integers
is `ℚ` division, made partial (`Option`) to capture `ZeroDivisionError`.
Uncaught Python exceptions are modelled as `none`/`Option.none` results.
-/

/-! ## String primitives modelling the Python built-ins used by the script -/

/-- Models Python `str.startswith`. -/
def pyStartsWith (s p : String) : Bool := decide (p.data <+: s.data)

/-- Models Python `str.endswith` (single-suffix form). -/
def pyEndsWith (s suf : String) : Bool := decide (suf.data <:+ s.data)

/-- Models Python `str.lower`.  The script only lowers ASCII file-name
extensions, so the ASCII `Char.toLower` is adequate. -/
def lowerStr (s : String) : String := String.mk (s.data.map Char.toLower)

/-- Whitespace stripped by Python `str.strip()` (ASCII part). -/
def isPyWhitespace (c : Char) : Bool :=
  c = ' ' || c = '\t' || c = '\n' || c = '\r' || c = '\x0b' || c = '\x0c'

/-- Models Python `str.strip()`. -/
def pyStrip (s : String) : String :=
  String.mk (((s.data.dropWhile isPyWhitespace).reverse.dropWhile isPyWhitespace).reverse)

/-- One step of Python `str.replace`: replace every non-overlapping occurrence
of `p` (scanning left to right) by `r`.  `fuel` bounds the recursion; it is
instantiated with the length of the subject string, which suffices because
each step consumes at least one character (the script only calls this with
the non-empty pattern ".emf"). -/
def replaceAllFuel (p r : List Char) : Nat → List Char → List Char
  | _, [] => []
  | 0, s => s
  | fuel + 1, c :: rest =>
    if p.isPrefixOf (c :: rest) && !p.isEmpty then
      r ++ replaceAllFuel p r fuel ((c :: rest).drop p.length)
    else
      c :: replaceAllFuel p r fuel rest

/-- Models Python `str.replace` (all occurrences). -/
def pyReplace (s p r : String) : String :=
  String.mk (replaceAllFuel p.data r.data s.data.length s.data)

/-- Models Python `dict` built from a comprehension over (key, value) pairs
followed by `d[k]`/`k in d`: with duplicate keys the last pair wins. -/
def dictGet (pairs : List (String × String)) (k : String) : Option String :=
  (pairs.reverse.find? (fun pr => pr.1 == k)).map (·.2)

/-! ## MD5 (hashlib.md5), needed by `sanitize_for_latex` -/

/-- Truncate to a 32-bit word. -/
def w32 (n : Nat) : Nat := n % 4294967296

/-- Left-rotate a 32-bit word by `c` bits (`0 < c < 32` in all uses). -/
def rotl32 (x c : Nat) : Nat := w32 ((x <<< c) ||| (x >>> (32 - c)))

/-- The 64 MD5 sine-derived constants. -/
def md5K : List Nat :=
  [0xd76aa478, 0xe8c7b756, 0x242070db, 0xc1bdceee,
   0xf57c0faf, 0x4787c62a, 0xa8304613, 0xfd469501,
   0x698098d8, 0x8b44f7af, 0xffff5bb1, 0x895cd7be,
   0x6b901122, 0xfd987193, 0xa679438e, 0x49b40821,
   0xf61e2562, 0xc040b340, 0x265e5a51, 0xe9b6c7aa,
   0xd62f105d, 0x02441453, 0xd8a1e681, 0xe7d3fbc8,
   0x21e1cde6, 0xc33707d6, 0xf4d50d87, 0x455a14ed,
   0xa9e3e905, 0xfcefa3f8, 0x676f02d9, 0x8d2a4c8a,
   0xfffa3942, 0x8771f681, 0x6d9d6122, 0xfde5380c,
   0xa4beea44, 0x4bdecfa9, 0xf6bb4b60, 0xbebfbc70,
   0x289b7ec6, 0xeaa127fa, 0xd4ef3085, 0x04881d05,
   0xd9d4d039, 0xe6db99e5, 0x1fa27cf8, 0xc4ac5665,
   0xf4292244, 0x432aff97, 0xab9423a7, 0xfc93a039,
   0x655b59c3, 0x8f0ccc92, 0xffeff47d, 0x85845dd1,
   0x6fa87e4f, 0xfe2ce6e0, 0xa3014314, 0x4e0811a1,
   0xf7537e82, 0xbd3af235, 0x2ad7d2bb, 0xeb86d391]

/-- The 64 MD5 per-round left-rotation amounts. -/
def md5S : List Nat :=
  [7, 12, 17, 22, 7, 12, 17, 22, 7, 12, 17, 22, 7, 12, 17, 22,
   5, 9, 14, 20, 5, 9, 14, 20, 5, 9, 14, 20, 5, 9, 14, 20,
   4, 11, 16, 23, 4, 11, 16, 23, 4, 11, 16, 23, 4, 11, 16, 23,
   6, 10, 15, 21, 6, 10, 15, 21, 6, 10, 15, 21, 6, 10, 15, 21]

/-- The four 32-bit words of MD5 state. -/
structure MD5State where
  a : Nat
  b : Nat
  c : Nat
  d : Nat
deriving DecidableEq

/-- One of the 64 MD5 rounds; `M` is the current 16-word chunk. -/
def md5Round (M : List Nat) (st : MD5State) (i : Nat) : MD5State :=
  let fg :=
    if i < 16 then
      ((st.b &&& st.c) ||| ((st.b ^^^ 0xffffffff) &&& st.d), i)
    else if i < 32 then
      ((st.d &&& st.b) ||| ((st.d ^^^ 0xffffffff) &&& st.c), (5 * i + 1) % 16)
    else if i < 48 then
      (st.b ^^^ st.c ^^^ st.d, (3 * i + 5) % 16)
    else
      (st.c ^^^ (st.b ||| (st.d ^^^ 0xffffffff)), (7 * i) % 16)
  let f := w32 (fg.1 + st.a + md5K.getD i 0 + M.getD fg.2 0)
  { a := st.d, b := w32 (st.b + rotl32 f (md5S.getD i 0)), c := st.b, d := st.c }

/-- Read a 32-bit little-endian word from four bytes. -/
def leWord (b0 b1 b2 b3 : Nat) : Nat := b0 + b1 * 256 + b2 * 65536 + b3 * 16777216

/-- Split a 64-byte chunk into sixteen little-endian words. -/
def chunkWords (chunk : List Nat) : List Nat :=
  (List.range 16).map fun i =>
    leWord (chunk.getD (4 * i) 0) (chunk.getD (4 * i + 1) 0)
      (chunk.getD (4 * i + 2) 0) (chunk.getD (4 * i + 3) 0)

/-- Process one 64-byte chunk. -/
def md5Chunk (st : MD5State) (chunk : List Nat) : MD5State :=
  let M := chunkWords chunk
  let r := (List.range 64).foldl (md5Round M) st
  { a := w32 (st.a + r.a), b := w32 (st.b + r.b), c := w32 (st.c + r.c), d := w32 (st.d + r.d) }

/-- MD5 padding: a 0x80 byte, zeros to 56 mod 64, then the 64-bit
little-endian bit length. -/
def md5Pad (msg : List Nat) : List Nat :=
  let bitLen := (8 * msg.length) % 18446744073709551616
  let padLen := (120 - ((msg.length + 1) % 64)) % 64
  msg ++ [0x80] ++ List.replicate padLen 0 ++
    [bitLen &&& 255, (bitLen >>> 8) &&& 255, (bitLen >>> 16) &&& 255, (bitLen >>> 24) &&& 255,
     (bitLen >>> 32) &&& 255, (bitLen >>> 40) &&& 255, (bitLen >>> 48) &&& 255,
     (bitLen >>> 56) &&& 255]

/-- The fixed MD5 initial state. -/
def md5Init : MD5State :=
  { a := 0x67452301, b := 0xefcdab89, c := 0x98badcfe, d := 0x10325476 }

/-- Run MD5 over a padded message (whose length is a multiple of 64). -/
def md5Run (padded : List Nat) : MD5State :=
  (List.range (padded.length / 64)).foldl
    (fun st i => md5Chunk st ((padded.drop (64 * i)).take 64)) md5Init

/-- Lower-case hexadecimal digit for a nibble. -/
def hexChar (n : Nat) : Char := if n < 10 then Char.ofNat (48 + n) else Char.ofNat (87 + n)

/-- Two hex characters of one byte, high nibble first. -/
def byteHex (b : Nat) : List Char := [hexChar (b / 16 % 16), hexChar (b % 16)]

/-- The four little-endian bytes of a 32-bit word. -/
def leBytes4 (w : Nat) : List Nat :=
  [w &&& 255, (w >>> 8) &&& 255, (w >>> 16) &&& 255, (w >>> 24) &&& 255]

/-- The 16 digest bytes of an MD5 state, in output order. -/
def md5DigestBytes (st : MD5State) : List Nat :=
  leBytes4 st.a ++ leBytes4 st.b ++ leBytes4 st.c ++ leBytes4 st.d

/-- Models `hashlib.md5(bytes).hexdigest()`: 32 lower-case hex characters. -/
def md5HexChars (msg : List Nat) : List Char :=
  ((md5DigestBytes (md5Run (md5Pad msg))).map byteHex).flatten

/-- UTF-8 encoding of one character (models `str.encode('utf-8')`). -/
def utf8EncodeChar (c : Char) : List Nat :=
  let n := c.toNat
  if n < 128 then [n]
  else if n < 2048 then [192 ||| (n >>> 6), 128 ||| (n &&& 63)]
  else if n < 65536 then
    [224 ||| (n >>> 12), 128 ||| ((n >>> 6) &&& 63), 128 ||| (n &&& 63)]
  else
    [240 ||| (n >>> 18), 128 ||| ((n >>> 12) &&& 63), 128 ||| ((n >>> 6) &&& 63),
     128 ||| (n &&& 63)]

/-- UTF-8 encoding of a string, as a byte list. -/
def utf8Encode (s : String) : List Nat := (s.data.map utf8EncodeChar).flatten

/-! ## sanitize_for_latex and escape_latex (src/pptx2beamer.py lines 19-43) -/

/-- The characters kept by `re.sub(r'[^a-zA-Z0-9]', '', text)`. -/
def isAsciiAlnum (c : Char) : Bool :=
  ('a' ≤ c && c ≤ 'z') || ('A' ≤ c && c ≤ 'Z') || ('0' ≤ c && c ≤ '9')

/-- Models `re.sub(r'[^a-zA-Z0-9]', '', text)`. -/
def stripNonAlnum (text : String) : String := String.mk (text.data.filter isAsciiAlnum)

/-- Models `hashlib.md5(text.encode('utf-8')).hexdigest()[:8]`. -/
def md5Hex8 (text : String) : String := String.mk ((md5HexChars (utf8Encode text)).take 8)

/-- Embeds `sanitize_for_latex` (lines 19-25). -/
def sanitize_for_latex (text : String) : String :=
  let sanitized := stripNonAlnum text
  if sanitized ≠ "" then sanitized
  else "layout" ++ md5Hex8 text

/-- Lower-case hexadecimal digits, the alphabet of `hexdigest()`. -/
def isHexDigitChar (c : Char) : Bool :=
  ('0' ≤ c && c ≤ '9') || ('a' ≤ c && c ≤ 'f')

/-- The replacement table of `escape_latex` (lines 31-42). -/
def latexReplacements : List (Char × String) :=
  [('\\', "\\textbackslash\x7b\x7d"),
   ('&', "\\&"),
   ('%', "\\%"),
   ('$', "\\$"),
   ('#', "\\#"),
   ('_', "\\_"),
   ('\x7b', "\\\x7b"),
   ('\x7d', "\\\x7d"),
   ('~', "\\textasciitilde\x7b\x7d"),
   ('^', "\\textasciicircum\x7b\x7d")]

/-- Models `replacements.get(ch, ch)`. -/
def replacementFor (c : Char) : String :=
  match latexReplacements.find? (fun pr => pr.1 = c) with
  | some pr => pr.2
  | none => String.singleton c

/-- Embeds `escape_latex` (lines 27-43).  The argument is `Option String`
because the Python function distinguishes a `None` input. -/
def escape_latex : Option String → String
  | none => ""
  | some text => String.join (text.data.map replacementFor)

/-- Modelled from the spec's words (section 4.6): the per-character image of
the LaTeX escaping table — each of the ten special characters maps to its
fixed escape sequence and every other character passes through unchanged.
Used to compare the source's dictionary-based definition against the spec. -/
def escapeCharSpec (c : Char) : String :=
  if c = '\\' then "\\textbackslash\x7b\x7d"
  else if c = '&' then "\\&"
  else if c = '%' then "\\%"
  else if c = '$' then "\\$"
  else if c = '#' then "\\#"
  else if c = '_' then "\\_"
  else if c = '\x7b' then "\\\x7b"
  else if c = '\x7d' then "\\\x7d"
  else if c = '~' then "\\textasciitilde\x7b\x7d"
  else if c = '^' then "\\textasciicircum\x7b\x7d"
  else String.singleton c

/-! ## Data model of slide parts (src/pptx2beamer.py lines 47-146) -/

/-- An image position in EMU, as built at lines 125-135 (attribute values
already parsed to integers; a missing attribute or element defaults to 0). -/
structure PicPosition where
  x : Int
  y : Int
  width : Int
  height : Int
deriving DecidableEq

/-- The transform (`a:xfrm`) of a picture: optional offset (`a:off` x, y) and
optional extent (`a:ext` cx, cy). -/
structure XfrmData where
  off : Option (Int × Int)
  ext : Option (Int × Int)
deriving DecidableEq

/-- A shape (`p:sp`): its placeholder type attribute (none when the `p:ph`
element or its `type` attribute is absent) and the texts of its `a:t` nodes
in document order (`none` models a text node whose `.text` is Python None). -/
structure Shape where
  ph_type : Option String
  runs : List (Option String)
deriving DecidableEq

/-- A picture (`p:pic`): the resolved `r:embed` attribute of its blip (none
when no blip is found or the attribute is absent) and its transform. -/
structure Pic where
  embed : Option String
  xfrm : Option XfrmData
deriving DecidableEq

/-- A successfully parsed slide XML document, in the shape the script
consumes it (lines 89 and 111 walk shapes and pictures separately, each in
document order). -/
structure SlideXml where
  shapes : List Shape
  pics : List Pic
deriving DecidableEq

/-- The relationships sidecar of a slide: absent file, file that
`ET.parse` rejects, or parsed (Id, Target) pairs. -/
inductive RelsPart where
  | missing
  | malformed
  | ok (rels : List (String × String))
deriving DecidableEq

/-- One file of the `ppt/slides` directory together with its sidecar.
`xml = none` models a slide file that `ET.parse` rejects. -/
structure SlideFile where
  name : String
  rels : RelsPart
  xml : Option SlideXml
deriving DecidableEq

/-- An extracted image entry (lines 137-140). -/
structure ImageRef where
  name : String
  position : PicPosition
deriving DecidableEq

/-- The per-slide record built by `parse_slides_for_content`
(lines 68-73). -/
structure SlideInfo where
  number : String
  images : List ImageRef
  title : String
  texts : List String
deriving DecidableEq

/-! ## parse_slides_for_content (src/pptx2beamer.py lines 47-146) -/

/-- The text of one shape: concatenation of its non-None, non-empty runs,
stripped (lines 93-98). -/
def shapeText (sh : Shape) : String :=
  pyStrip (String.join ((sh.runs.filterMap id).filter (fun t => t ≠ "")))

/-- The body of the shape loop (lines 89-108), acting on the (title, texts)
state of the current slide record. -/
def stepShape (st : String × List String) (sh : Shape) : String × List String :=
  let text := shapeText sh
  if text = "" then st
  else
    match sh.ph_type with
    | some t =>
      if t = "title" ∨ t = "ctrTitle" then
        if pyStartsWith st.1 "Slide " then (text, st.2) else st
      else if t = "subtitle" then st
      else (st.1, st.2 ++ [text])
    | none => (st.1, st.2 ++ [text])

/-- The shape loop (lines 89-108). -/
def processShapes (shapes : List Shape) (st : String × List String) : String × List String :=
  shapes.foldl stepShape st

/-- A shape that reaches the title branch at lines 100-102: placeholder type
`title` or `ctrTitle` and non-empty stripped text. -/
def qualifiesTitle (sh : Shape) : Prop :=
  (sh.ph_type = some "title" ∨ sh.ph_type = some "ctrTitle") ∧ shapeText sh ≠ ""

instance (sh : Shape) : Decidable (qualifiesTitle sh) := by
  unfold qualifiesTitle; infer_instance

/-- Filename normalization for `.jfif` targets (lines 120-122). -/
def normalizeJfif (p : String) : String :=
  if pyEndsWith (lowerStr p) ".jfif" then
    String.mk (p.data.take (p.data.length - 5) ++ ".jpg".data)
  else p

/-- The last path component: `target.split('/')[-1]` (line 119). -/
def lastComponent (target : String) : String := (target.splitOn "/").getLastD ""

/-- The body of the picture loop (lines 111-140): resolve the embed id via
the relationship mapping (silently skipped when unresolvable), normalize the
filename and read the position. -/
def processPic (rels : List (String × String)) (p : Pic) : Option ImageRef :=
  match p.embed with
  | none => none
  | some rId =>
    match dictGet rels rId with
    | none => none
    | some target =>
      let img_path := normalizeJfif (lastComponent target)
      let position : PicPosition :=
        match p.xfrm with
        | none => { x := 0, y := 0, width := 0, height := 0 }
        | some xf =>
          { x := (xf.off.getD (0, 0)).1, y := (xf.off.getD (0, 0)).2,
            width := (xf.ext.getD (0, 0)).1, height := (xf.ext.getD (0, 0)).2 }
      some { name := img_path, position := position }

/-- The record a slide starts from (lines 68-73). -/
def defaultSlideInfo (num : String) : SlideInfo :=
  { number := num, images := [], title := "Slide " ++ num, texts := [] }

/-- Content extraction from a successfully parsed slide document
(lines 84-140, success path). -/
def parseSlideXml (num : String) (rels : List (String × String)) (x : SlideXml) : SlideInfo :=
  let st := processShapes x.shapes ("Slide " ++ num, [])
  { number := num, title := st.1, texts := st.2,
    images := x.pics.filterMap (processPic rels) }

/-- Processing of one slide file (lines 66-144).  `none` models an uncaught
exception: `ET.parse` of a present-but-malformed relationships sidecar runs
OUTSIDE the `try` block (line 80), so its failure propagates; a missing
sidecar short-circuits to the default record (lines 75-77) without parsing
the slide XML; a slide XML rejected by `ET.parse` is caught by the
`try`/`except` (lines 84-142) and leaves the default record. -/
def processSlide (num : String) (f : SlideFile) : Option SlideInfo :=
  match f.rels with
  | RelsPart.missing => some (defaultSlideInfo num)
  | RelsPart.malformed => none
  | RelsPart.ok rels =>
    match f.xml with
    | none => some (defaultSlideInfo num)
    | some x => some (parseSlideXml num rels x)

/-- Glob pattern `slide*.xml` on a file name (line 61). -/
def globSlideXml (name : String) : Bool :=
  pyStartsWith name "slide" && pyEndsWith name ".xml" && decide (9 ≤ name.data.length)

/-- Match `slide(\d+)\.xml` at the head of `l`, returning the digit group.
The greedy `\d+` takes the maximal digit run; backtracking cannot help
because a shorter run is followed by a digit, not '.'. -/
def matchSlideNumAt (l : List Char) : Option (List Char) :=
  if "slide".data.isPrefixOf l then
    let rest := l.drop 5
    let digits := rest.takeWhile Char.isDigit
    if digits.isEmpty then none
    else if ".xml".data.isPrefixOf (rest.drop digits.length) then some digits
    else none
  else none

/-- Leftmost match of `re.search(r'slide(\d+)\.xml', name)` (lines 62, 65),
returning the digit group. -/
def searchSlideNum : List Char → Option (List Char)
  | [] => none
  | c :: rest =>
    match matchSlideNumAt (c :: rest) with
    | some d => some d
    | none => searchSlideNum rest

/-- The digit group of the slide-number regex over a file name. -/
def slideNumSearch (name : String) : Option (List Char) := searchSlideNum name.data

/-- Value of a digit string (Python `int` on the regex group). -/
def digitsToNat (l : List Char) : Nat := l.foldl (fun acc c => 10 * acc + (c.toNat - 48)) 0

/-- `group(1)` of the slide-number regex as the string stored in the record
(line 65); only evaluated after the search is known to succeed. -/
def slideNumString (name : String) : String := String.mk ((slideNumSearch name).getD [])

/-- The sort key `int(re.search(r'slide(\d+)\.xml', x.name).group(1))`
(line 62); only evaluated after the search is known to succeed. -/
def slideSortKey (f : SlideFile) : Nat := digitsToNat ((slideNumSearch f.name).getD [])

/-- Stable insertion of an element into a key-sorted list (an element is
placed before the first strictly larger key, after equal keys seen later in
the original list have been placed — matching Python's stable `sorted`). -/
def insertByKey {α : Type} (key : α → Nat) (x : α) : List α → List α
  | [] => [x]
  | y :: ys => if key x ≤ key y then x :: y :: ys else y :: insertByKey key x ys

/-- Stable sort by a natural-number key, modelling Python `sorted(..., key=...)`. -/
def insertionSortByKey {α : Type} (key : α → Nat) : List α → List α
  | [] => []
  | x :: xs => insertByKey key x (insertionSortByKey key xs)

/-- The slide loop (lines 64-144): each slide file yields one record;
`none` propagates an uncaught per-slide exception. -/
def processAllSlides : List SlideFile → Option (List SlideInfo)
  | [] => some []
  | f :: rest =>
    match processSlide (slideNumString f.name) f, processAllSlides rest with
    | some i, some is => some (i :: is)
    | _, _ => none

/-- Embeds `parse_slides_for_content` (lines 47-146) over the list of files
present in `ppt/slides`.  `sorted(...)` evaluates the regex key on every
glob-matched file first, so a glob-matched name on which the regex search
fails raises (`None.group(1)`) before any slide is processed — modelled by
the `all` guard.  `none` models the run aborting with an uncaught
exception. -/
def parse_slides_for_content (files : List SlideFile) : Option (List SlideInfo) :=
  let globbed := files.filter fun f => globSlideXml f.name
  if globbed.all (fun f => (slideNumSearch f.name).isSome) then
    processAllSlides (insertionSortByKey slideSortKey globbed)
  else none

/-! ## Geometry (src/pptx2beamer.py lines 201-238) and presentation.xml -/

/-- Slide-relative fractional position (lines 208-213). -/
structure PosRel where
  x_rel : ℚ
  y_rel : ℚ
  width_rel : ℚ
  height_rel : ℚ
deriving DecidableEq

/-- Embeds `convert_ppt_to_beamer_position` (lines 201-213).  Python `/` on
integers raises `ZeroDivisionError` when a paper dimension is 0, so the
conversion is partial. -/
def convert_ppt_to_beamer_position (position : PicPosition)
    (paper_width paper_height : Int) : Option PosRel :=
  if paper_width = 0 ∨ paper_height = 0 then none
  else some
    { x_rel := (position.x : ℚ) / (paper_width : ℚ),
      y_rel := (position.y : ℚ) / (paper_height : ℚ),
      width_rel := (position.width : ℚ) / (paper_width : ℚ),
      height_rel := (position.height : ℚ) / (paper_height : ℚ) }

/-- The declared slide size (line 219). -/
structure SlideSize where
  width : Int
  height : Int
deriving DecidableEq

/-- The `p:sldSz` element: its `cx`/`cy` attributes (none when absent),
values already parsed to integers. -/
structure SldSz where
  cx : Option Int
  cy : Option Int
deriving DecidableEq

/-- The `ppt/presentation.xml` part: absent file, file rejected by
`ET.parse`, or parsed content with its optional `p:sldSz` element. -/
inductive PresPart where
  | missing
  | malformed
  | ok (sldSz : Option SldSz)
deriving DecidableEq

/-- Embeds `parse_presentation_xml` (lines 215-229): any missing or
malformed part (or absent `sldSz`/attribute) falls back to the
12192000 × 6858000 default; a declared value is accepted unvalidated. -/
def parse_presentation_xml : PresPart → SlideSize
  | PresPart.missing => { width := 12192000, height := 6858000 }
  | PresPart.malformed => { width := 12192000, height := 6858000 }
  | PresPart.ok none => { width := 12192000, height := 6858000 }
  | PresPart.ok (some sz) => { width := sz.cx.getD 12192000, height := sz.cy.getD 6858000 }

/-- Embeds `is_full_slide_background` (lines 231-238). -/
def is_full_slide_background (pos_rel : PosRel) (tol : ℚ) : Bool :=
  decide (pos_rel.x_rel ≤ tol) && decide (pos_rel.y_rel ≤ tol) &&
  decide (1 - tol ≤ pos_rel.width_rel) && decide (1 - tol ≤ pos_rel.height_rel)

/-! ## Per-image emission (src/pptx2beamer.py lines 279-294) -/

/-- The image-inclusion line written at line 293. -/
def includeGraphicsLine (p : String) : String :=
  "    \\includegraphics[width=0.85\\linewidth]\x7b" ++ p ++ "\x7d"

/-- Embeds the per-image body of the slide loop in `generate_main_tex`
(lines 279-294): convert the position (may raise on a zero paper dimension,
hence `Option`), rewrite a (case-insensitively detected) `.emf` extension by
a case-SENSITIVE replace of ".emf" with ".pdf", skip `.tiff`/`.tif` files
and full-slide backgrounds, otherwise emit the centered inclusion lines.
The line 287 `img_path = f"fig/{img_path}"` of the source is dead code after
the `continue` and contributes nothing. -/
def emitImageLines (paper_width paper_height : Int) (img : ImageRef) : Option (List String) :=
  (convert_ppt_to_beamer_position img.position paper_width paper_height).map fun pos =>
    let img_path := img.name
    let img_path :=
      if pyEndsWith (lowerStr img_path) ".emf" then pyReplace img_path ".emf" ".pdf"
      else img_path
    if pyEndsWith (lowerStr img_path) ".tiff" || pyEndsWith (lowerStr img_path) ".tif" then []
    else if is_full_slide_background pos (2 / 100) then []
    else ["  \\begin\x7bcenter\x7d", includeGraphicsLine img_path, "  \\end\x7bcenter\x7d"]

/-! ## Helper lemmas -/

/-- Two suffixes of the same list with equal lengths are equal. -/
theorem suffix_eq_of_length_eq {α : Type} {s1 s2 l : List α}
    (h1 : s1 <:+ l) (h2 : s2 <:+ l) (hl : s1.length = s2.length) : s1 = s2 := by
  obtain ⟨t1, ht1⟩ := h1
  obtain ⟨t2, ht2⟩ := h2
  have he : t1 ++ s1 = t2 ++ s2 := ht1.trans ht2.symm
  have hlen : t1.length = t2.length := by
    have := congrArg List.length he
    simp only [List.length_append] at this
    omega
  exact List.append_inj_right he hlen

/-- Of two suffixes of the same list, the shorter is a suffix of the longer. -/
theorem suffix_of_suffix_of_length_le {α : Type} {s1 s2 l : List α}
    (h1 : s1 <:+ l) (h2 : s2 <:+ l) (hl : s1.length ≤ s2.length) : s1 <:+ s2 := by
  obtain ⟨t1, ht1⟩ := h1
  obtain ⟨t2, ht2⟩ := h2
  have he : t1 ++ s1 = t2 ++ s2 := ht1.trans ht2.symm
  have hlen : t2.length ≤ t1.length := by
    have := congrArg List.length he
    simp only [List.length_append] at this
    omega
  refine ⟨t1.drop t2.length, ?_⟩
  have hd := congrArg (List.drop t2.length) he
  rwa [List.drop_append_of_le_length hlen, List.drop_left] at hd

/-- A nibble value yields a lower-case hex character. -/
theorem hexChar_isHex {n : Nat} (h : n < 16) : isHexDigitChar (hexChar n) = true := by
  have hall : (List.range 16).all (fun m => isHexDigitChar (hexChar m)) = true := by decide
  exact (List.all_eq_true.mp hall) n (List.mem_range.mpr h)

/-- Every character of an MD5 hexdigest is a hex digit. -/
theorem mem_md5HexChars_isHex {msg : List Nat} {c : Char}
    (hc : c ∈ md5HexChars msg) : isHexDigitChar c = true := by
  unfold md5HexChars at hc
  obtain ⟨l, hl, hcl⟩ := List.mem_flatten.mp hc
  obtain ⟨b, _, hb⟩ := List.mem_map.mp hl
  subst hb
  simp only [byteHex, List.mem_cons, List.not_mem_nil, or_false] at hcl
  rcases hcl with rfl | rfl
  · exact hexChar_isHex (Nat.mod_lt _ (by omega))
  · exact hexChar_isHex (Nat.mod_lt _ (by omega))

/-- An MD5 hexdigest has 32 characters. -/
theorem md5HexChars_length (msg : List Nat) : (md5HexChars msg).length = 32 := by
  unfold md5HexChars
  have hb : ∀ b : Nat, (byteHex b).length = 2 := fun b => rfl
  rw [List.length_flatten, List.map_map]
  have : (List.length ∘ byteHex) = fun _ : Nat => 2 := funext fun b => rfl
  rw [this]
  unfold md5DigestBytes leBytes4
  simp

/-! ## C10 and C8: escape_latex -/

/-- C10: the LaTeX escaper tolerates an absent text — for the input None
(no text) escape_latex returns the empty string rather than failing, so an
emission site passing a missing field through escaping produces empty
output. -/
theorem escape_latex_none_eq_empty : escape_latex none = "" := rfl

/-- The dictionary lookup of `escape_latex` agrees pointwise with the
per-character substitution written out from the spec. -/
theorem replacementFor_eq_escapeCharSpec (c : Char) : replacementFor c = escapeCharSpec c := by
  rcases eq_or_ne c '\\' with rfl | h0
  · decide
  rcases eq_or_ne c '&' with rfl | h1
  · decide
  rcases eq_or_ne c '%' with rfl | h2
  · decide
  rcases eq_or_ne c '$' with rfl | h3
  · decide
  rcases eq_or_ne c '#' with rfl | h4
  · decide
  rcases eq_or_ne c '_' with rfl | h5
  · decide
  rcases eq_or_ne c '\x7b' with rfl | h6
  · decide
  rcases eq_or_ne c '\x7d' with rfl | h7
  · decide
  rcases eq_or_ne c '~' with rfl | h8
  · decide
  rcases eq_or_ne c '^' with rfl | h9
  · decide
  have hfind : latexReplacements.find? (fun pr => pr.1 = c) = none := by
    rw [List.find?_eq_none]
    intro x hx
    fin_cases hx <;>
      simp only [decide_eq_true_eq] <;>
      [exact fun hh => h0 hh.symm; exact fun hh => h1 hh.symm; exact fun hh => h2 hh.symm;
       exact fun hh => h3 hh.symm; exact fun hh => h4 hh.symm; exact fun hh => h5 hh.symm;
       exact fun hh => h6 hh.symm; exact fun hh => h7 hh.symm; exact fun hh => h8 hh.symm;
       exact fun hh => h9 hh.symm]
  unfold replacementFor escapeCharSpec
  rw [hfind]
  simp [h0, h1, h2, h3, h4, h5, h6, h7, h8, h9]

/-- C8: LaTeX escaping is a per-character substitution — the output is the
concatenation, in input order, of the per-character images given by the
spec's fixed table (ten special characters replaced, every other character
passed through unchanged). -/
theorem escape_latex_per_char :
    (∀ s : String, escape_latex (some s) = String.join (s.data.map escapeCharSpec)) ∧
    (∀ c : Char, replacementFor c = escapeCharSpec c) := by
  refine ⟨fun s => ?_, replacementFor_eq_escapeCharSpec⟩
  have he : escape_latex (some s) = String.join (s.data.map replacementFor) := rfl
  rw [he]
  congr 1
  exact List.map_congr_left fun c _ => replacementFor_eq_escapeCharSpec c

/-! ## C7: sanitize_for_latex -/

/-- C7: command-name sanitization is deterministic, strips all
non-alphanumeric characters, and on an all-symbolic input falls back to the
fixed literal "layout" followed by the first 8 hex characters of the MD5
hexdigest of the original text; the result is never empty. -/
theorem sanitize_for_latex_spec (t : String) :
    sanitize_for_latex t = sanitize_for_latex t ∧
    (stripNonAlnum t ≠ "" → sanitize_for_latex t = stripNonAlnum t) ∧
    (stripNonAlnum t = "" →
      sanitize_for_latex t = "layout" ++ md5Hex8 t ∧
      (md5Hex8 t).length = 8 ∧
      (md5Hex8 t).data.all isHexDigitChar = true) ∧
    sanitize_for_latex t ≠ "" := by
  refine ⟨rfl, fun h => ?_, fun h => ⟨?_, ?_, ?_⟩, ?_⟩
  · simp [sanitize_for_latex, h]
  · simp [sanitize_for_latex, h]
  · show (String.mk ((md5HexChars (utf8Encode t)).take 8)).length = 8
    show ((md5HexChars (utf8Encode t)).take 8).length = 8
    rw [List.length_take, md5HexChars_length]
    decide
  · rw [List.all_eq_true]
    intro c hc
    exact mem_md5HexChars_isHex (List.mem_of_mem_take hc)
  · by_cases h : stripNonAlnum t = ""
    · simp only [sanitize_for_latex, h, ne_eq, not_true_eq_false, if_false]
      intro he
      have := congrArg String.length he
      rw [String.length_append] at this
      simp at this
      exact absurd this.1 (by decide)
    · simp [sanitize_for_latex, h]

set_option maxRecDepth 4096 in
/-- Witness for C7 at the all-symbolic input "★★★": the stripped result is
empty, the fallback has the fixed prefix and the concrete 8-hex-character
hash tail, and the output is non-empty. -/
theorem sanitize_for_latex_spec_witness :
    stripNonAlnum "★★★" = "" ∧
    sanitize_for_latex "★★★" = "layout" ++ md5Hex8 "★★★" ∧
    sanitize_for_latex "★★★" ≠ "" ∧
    md5Hex8 "★★★" = "0042d27b" :=
  ⟨by decide, ((sanitize_for_latex_spec "★★★").2.2.1 (by decide)).1,
   (sanitize_for_latex_spec "★★★").2.2.2, by decide⟩

/-! ## C9: partiality of the geometry conversion in the declared slide size -/

/-- C9: parse_presentation_xml accepts a declared slide width of 0 without
validation; converting any position with a zero paper dimension fails
(division by zero); the conversion is total when both dimensions are
positive; and a missing or malformed presentation part gets the positive
defaults 12192000 × 6858000, under which conversion always succeeds. -/
theorem geometry_partial_in_slide_size :
    parse_presentation_xml (PresPart.ok (some ⟨some 0, some 6858000⟩)) = ⟨0, 6858000⟩ ∧
    (∀ (position : PicPosition) (h : Int),
       convert_ppt_to_beamer_position position 0 h = none) ∧
    (∀ (position : PicPosition) (w : Int),
       convert_ppt_to_beamer_position position w 0 = none) ∧
    (∀ (position : PicPosition) (w h : Int), 0 < w → 0 < h →
       (convert_ppt_to_beamer_position position w h).isSome = true) ∧
    (∀ p : PresPart, p = PresPart.missing ∨ p = PresPart.malformed →
       parse_presentation_xml p = ⟨12192000, 6858000⟩ ∧
       ∀ position : PicPosition,
         (convert_ppt_to_beamer_position position (parse_presentation_xml p).width
            (parse_presentation_xml p).height).isSome = true) := by
  refine ⟨rfl, fun position h => ?_, fun position w => ?_, fun position w h hw hh => ?_, ?_⟩
  · simp [convert_ppt_to_beamer_position]
  · simp [convert_ppt_to_beamer_position]
  · rw [convert_ppt_to_beamer_position, if_neg (by omega)]
    rfl
  · rintro p (rfl | rfl) <;>
      exact ⟨rfl, fun position => by rw [convert_ppt_to_beamer_position, if_neg (by decide)]; rfl⟩

/-- Witness for C9 at concrete inputs: conversion fails at paper width 0,
succeeds at the positive defaults, and the default fallback is safe. -/
theorem geometry_partial_in_slide_size_witness :
    convert_ppt_to_beamer_position ⟨1, 2, 3, 4⟩ 0 6858000 = none ∧
    (convert_ppt_to_beamer_position ⟨1, 2, 3, 4⟩ 12192000 6858000).isSome = true ∧
    (convert_ppt_to_beamer_position ⟨0, 0, 0, 0⟩
        (parse_presentation_xml PresPart.missing).width
        (parse_presentation_xml PresPart.missing).height).isSome = true :=
  ⟨geometry_partial_in_slide_size.2.1 ⟨1, 2, 3, 4⟩ 6858000,
   geometry_partial_in_slide_size.2.2.2.1 ⟨1, 2, 3, 4⟩ 12192000 6858000 (by decide) (by decide),
   (geometry_partial_in_slide_size.2.2.2.2 PresPart.missing (Or.inl rfl)).2 ⟨0, 0, 0, 0⟩⟩

/-! ## C5 and C6: per-image emission rules -/

/-- Replacement on the empty string is the empty string, for any fuel. -/
theorem replaceAllFuel_nil (p r : List Char) (fuel : Nat) : replaceAllFuel p r fuel [] = [] := by
  cases fuel <;> rfl

/-- Replacing ".emf" by ".pdf" in a name made of a dot-free stem followed by
".emf" rewrites exactly the extension. -/
theorem replaceAll_emf :
    ∀ stem : List Char, (∀ c ∈ stem, c ≠ '.') → ∀ fuel, stem.length + 4 ≤ fuel →
      replaceAllFuel ".emf".data ".pdf".data fuel (stem ++ ".emf".data) =
        stem ++ ".pdf".data := by
  intro stem
  induction stem with
  | nil =>
    intro _ fuel hf
    obtain ⟨f, rfl⟩ : ∃ f, fuel = f + 1 := by
      cases fuel
      · omega
      · exact ⟨_, rfl⟩
    simp [replaceAllFuel, replaceAllFuel_nil]
  | cons c stem2 ih =>
    intro hdot fuel hf
    obtain ⟨f, rfl⟩ : ∃ f, fuel = f + 1 := by
      cases fuel
      · omega
      · exact ⟨_, rfl⟩
    have hc : c ≠ '.' := hdot c (List.mem_cons_self _ _)
    have hbeq : ('.' == c) = false := beq_eq_false_iff_ne.mpr (Ne.symm hc)
    have hpre : (".emf".data.isPrefixOf (c :: (stem2 ++ ".emf".data))) = false := by
      show (('.' :: "emf".data).isPrefixOf (c :: (stem2 ++ ".emf".data))) = false
      simp [List.isPrefixOf, hbeq]
    rw [List.cons_append, List.cons_append]
    show replaceAllFuel ".emf".data ".pdf".data (f + 1) (c :: (stem2 ++ ".emf".data)) = _
    rw [replaceAllFuel, hpre]
    simp only [Bool.false_and, Bool.false_eq_true, if_false]
    congr 1
    exact ih (fun x hx => hdot x (List.mem_cons_of_mem _ hx)) f
      (by simp only [List.length_cons] at hf; omega)

/-- C5 (amended): `.tiff`/`.tif` files (case-insensitive) are never emitted;
for `.emf` the detection is case-insensitive but the rewrite replaces only
literal lowercase ".emf", so a name made of a dot-free stem and a lowercase
".emf" extension is emitted with a ".pdf" extension (while an uppercase
".EMF" passes through unrewritten — see the counterexample). -/
theorem format_exclusion_amended :
    (∀ (w h : Int) (img : ImageRef),
       (pyEndsWith (lowerStr img.name) ".tiff" || pyEndsWith (lowerStr img.name) ".tif") = true →
       emitImageLines w h img =
         (convert_ppt_to_beamer_position img.position w h).map (fun _ => [])) ∧
    (∀ (w h : Int) (stem : List Char) (position : PicPosition) (pos : PosRel),
       (∀ c ∈ stem, c ≠ '.') →
       convert_ppt_to_beamer_position position w h = some pos →
       is_full_slide_background pos (2 / 100) = false →
       emitImageLines w h ⟨String.mk (stem ++ ".emf".data), position⟩ =
         some ["  \\begin\x7bcenter\x7d",
               includeGraphicsLine (String.mk (stem ++ ".pdf".data)),
               "  \\end\x7bcenter\x7d"]) := by
  constructor
  · intro w h img hts
    have hemf : pyEndsWith (lowerStr img.name) ".emf" = false := by
      rcases hB : pyEndsWith (lowerStr img.name) ".emf" with _ | _
      · rfl
      exfalso
      have hsuf : ".emf".data <:+ (lowerStr img.name).data := of_decide_eq_true hB
      rcases Bool.or_eq_true_iff.mp hts with h1 | h1
      · have h2 : ".tiff".data <:+ (lowerStr img.name).data := of_decide_eq_true h1
        have := suffix_of_suffix_of_length_le hsuf h2 (by decide)
        exact absurd this (by decide)
      · have h2 : ".tif".data <:+ (lowerStr img.name).data := of_decide_eq_true h1
        have := suffix_eq_of_length_eq hsuf h2 (by decide)
        exact absurd this (by decide)
    unfold emitImageLines
    cases hc : convert_ppt_to_beamer_position img.position w h with
    | none => rfl
    | some pos => simp [hemf, hts]
  · intro w h stem position pos hdot hconv hbg
    have hmap_emf : List.map Char.toLower ".emf".data = ".emf".data := by decide
    have hmap_pdf : List.map Char.toLower ".pdf".data = ".pdf".data := by decide
    have hlower_emf : (lowerStr (String.mk (stem ++ ".emf".data))).data
        = stem.map Char.toLower ++ ".emf".data := by
      show (stem ++ ".emf".data).map Char.toLower = _
      rw [List.map_append, hmap_emf]
    have hemf : pyEndsWith (lowerStr (String.mk (stem ++ ".emf".data))) ".emf" = true := by
      apply decide_eq_true
      show ".emf".data <:+ (lowerStr (String.mk (stem ++ ".emf".data))).data
      rw [hlower_emf]
      exact List.suffix_append _ _
    have hrep : pyReplace (String.mk (stem ++ ".emf".data)) ".emf" ".pdf"
        = String.mk (stem ++ ".pdf".data) := by
      unfold pyReplace
      congr 1
      exact replaceAll_emf stem hdot _ (by simp)
    have hlower_pdf : (lowerStr (String.mk (stem ++ ".pdf".data))).data
        = stem.map Char.toLower ++ ".pdf".data := by
      show (stem ++ ".pdf".data).map Char.toLower = _
      rw [List.map_append, hmap_pdf]
    have hpdf_suf : ".pdf".data <:+ (lowerStr (String.mk (stem ++ ".pdf".data))).data := by
      rw [hlower_pdf]
      exact List.suffix_append _ _
    have htiff : pyEndsWith (lowerStr (String.mk (stem ++ ".pdf".data))) ".tiff" = false := by
      rcases hB : pyEndsWith (lowerStr (String.mk (stem ++ ".pdf".data))) ".tiff" with _ | _
      · rfl
      exfalso
      have hsuf : ".tiff".data <:+ (lowerStr (String.mk (stem ++ ".pdf".data))).data :=
        of_decide_eq_true hB
      have := suffix_of_suffix_of_length_le hpdf_suf hsuf (by decide)
      exact absurd this (by decide)
    have htif : pyEndsWith (lowerStr (String.mk (stem ++ ".pdf".data))) ".tif" = false := by
      rcases hB : pyEndsWith (lowerStr (String.mk (stem ++ ".pdf".data))) ".tif" with _ | _
      · rfl
      exfalso
      have hsuf : ".tif".data <:+ (lowerStr (String.mk (stem ++ ".pdf".data))).data :=
        of_decide_eq_true hB
      have := suffix_eq_of_length_eq hsuf hpdf_suf (by decide)
      exact absurd this (by decide)
    unfold emitImageLines
    rw [hconv]
    simp [hemf, hrep, htiff, htif, hbg]

/-- Witness for C5 (amended) at concrete inputs: a ".TIFF" image is dropped,
and a lowercase "pic.emf" image at a non-background position is emitted with
the "pic.pdf" reference. -/
theorem format_exclusion_amended_witness :
    emitImageLines 12192000 6858000 ⟨"scan.TIFF", ⟨0, 0, 0, 0⟩⟩ =
      (convert_ppt_to_beamer_position ⟨0, 0, 0, 0⟩ 12192000 6858000).map (fun _ => []) ∧
    emitImageLines 12192000 6858000 ⟨String.mk ("pic".data ++ ".emf".data), ⟨0, 0, 0, 0⟩⟩ =
      some ["  \\begin\x7bcenter\x7d",
            includeGraphicsLine (String.mk ("pic".data ++ ".pdf".data)),
            "  \\end\x7bcenter\x7d"] := by
  constructor
  · exact format_exclusion_amended.1 12192000 6858000 ⟨"scan.TIFF", ⟨0, 0, 0, 0⟩⟩ (by decide)
  · exact format_exclusion_amended.2 12192000 6858000 "pic".data ⟨0, 0, 0, 0⟩ ⟨0, 0, 0, 0⟩
      (by decide)
      (by rw [convert_ppt_to_beamer_position, if_neg (by decide)]; norm_num)
      (by rw [is_full_slide_background]; norm_num)

/-- C5 counterexample: the image "img.EMF" ends in ".emf" case-insensitively
(so the claim requires a ".pdf" reference), yet the emitted inclusion still
references "img.EMF" — the uppercase extension is not rewritten. -/
theorem format_exclusion_cex :
    pyEndsWith (lowerStr "img.EMF") ".emf" = true ∧
    emitImageLines 12192000 6858000 ⟨"img.EMF", ⟨0, 0, 0, 0⟩⟩ =
      some ["  \\begin\x7bcenter\x7d", includeGraphicsLine "img.EMF",
            "  \\end\x7bcenter\x7d"] := by
  constructor
  · decide
  · unfold emitImageLines
    rw [convert_ppt_to_beamer_position, if_neg (by decide)]
    have h1 : pyReplace "img.EMF" ".emf" ".pdf" = "img.EMF" := by decide
    have h2 : pyEndsWith (lowerStr "img.EMF") ".emf" = true := by decide
    have h3 : pyEndsWith (lowerStr "img.EMF") ".tiff" = false := by decide
    have h4 : pyEndsWith (lowerStr "img.EMF") ".tif" = false := by decide
    simp only [Option.map_some']
    rw [h2]
    simp only [if_true]
    rw [h1, h3, h4]
    simp only [Bool.or_self, Bool.false_eq_true, if_false]
    rw [is_full_slide_background]
    norm_num

/-- C6: the background classification holds exactly when relative x and y
are each at most 0.02 and relative width and height are each at least 0.98;
every image classified as background produces no inclusion lines; the
position (0, 0.01, 1, 0.99) is background and any position with relative
x = 0.05 is not. -/
theorem full_bleed_classification :
    (∀ pos_rel : PosRel,
       is_full_slide_background pos_rel (2 / 100) = true ↔
         (pos_rel.x_rel ≤ 2 / 100 ∧ pos_rel.y_rel ≤ 2 / 100 ∧
          98 / 100 ≤ pos_rel.width_rel ∧ 98 / 100 ≤ pos_rel.height_rel)) ∧
    (∀ (w h : Int) (img : ImageRef) (pos : PosRel),
       convert_ppt_to_beamer_position img.position w h = some pos →
       is_full_slide_background pos (2 / 100) = true →
       emitImageLines w h img = some []) ∧
    is_full_slide_background ⟨0, 1 / 100, 1, 99 / 100⟩ (2 / 100) = true ∧
    (∀ pos_rel : PosRel, pos_rel.x_rel = 5 / 100 →
       is_full_slide_background pos_rel (2 / 100) = false) := by
  refine ⟨fun pos_rel => ?_, fun w h img pos hconv hbg => ?_, ?_, fun pos_rel hx => ?_⟩
  · rw [is_full_slide_background]
    simp only [Bool.and_eq_true, decide_eq_true_eq, and_assoc]
    norm_num
  · unfold emitImageLines
    rw [hconv]
    simp only [Option.map_some']
    congr 1
    by_cases htiff : (pyEndsWith
        (lowerStr (if pyEndsWith (lowerStr img.name) ".emf"
                   then pyReplace img.name ".emf" ".pdf" else img.name)) ".tiff" ||
      pyEndsWith
        (lowerStr (if pyEndsWith (lowerStr img.name) ".emf"
                   then pyReplace img.name ".emf" ".pdf" else img.name)) ".tif") = true
    · simp [htiff]
    · simp [htiff, hbg]
  · rw [is_full_slide_background]
    norm_num
  · rw [is_full_slide_background, hx]
    norm_num

/-- Witness for C6 at concrete inputs: a full-canvas image at the default
paper size produces no inclusion, and a position with relative x = 0.05 is
not classified as background. -/
theorem full_bleed_classification_witness :
    emitImageLines 12192000 6858000 ⟨"a.png", ⟨0, 0, 12192000, 6858000⟩⟩ = some [] ∧
    is_full_slide_background ⟨5 / 100, 0, 0, 0⟩ (2 / 100) = false := by
  constructor
  · exact full_bleed_classification.2.1 12192000 6858000 ⟨"a.png", ⟨0, 0, 12192000, 6858000⟩⟩
      ⟨0, 0, 1, 1⟩
      (by rw [convert_ppt_to_beamer_position, if_neg (by decide)]; norm_num)
      (by rw [is_full_slide_background]; norm_num)
  · exact full_bleed_classification.2.2.2 ⟨5 / 100, 0, 0, 0⟩ rfl

/-! ## Lemmas on the slide pipeline -/

/-- Membership is preserved by sorted insertion. -/
theorem mem_insertByKey {α : Type} (key : α → Nat) (x y : α) (l : List α) :
    y ∈ insertByKey key x l ↔ y ∈ x :: l := by
  induction l with
  | nil => exact Iff.rfl
  | cons z zs ih =>
    rw [insertByKey]
    split_ifs with hk
    · exact Iff.rfl
    · simp only [List.mem_cons, ih]
      tauto

/-- Membership is preserved by the insertion sort. -/
theorem mem_insertionSortByKey {α : Type} (key : α → Nat) (l : List α) (y : α) :
    y ∈ insertionSortByKey key l ↔ y ∈ l := by
  induction l with
  | nil => exact Iff.rfl
  | cons x xs ih =>
    rw [insertionSortByKey, mem_insertByKey]
    simp [ih]

/-- Sorted insertion adds one element. -/
theorem length_insertByKey {α : Type} (key : α → Nat) (x : α) (l : List α) :
    (insertByKey key x l).length = l.length + 1 := by
  induction l with
  | nil => rfl
  | cons z zs ih =>
    rw [insertByKey]
    split_ifs
    · rfl
    · simp [ih]

/-- The insertion sort preserves length. -/
theorem length_insertionSortByKey {α : Type} (key : α → Nat) (l : List α) :
    (insertionSortByKey key l).length = l.length := by
  induction l with
  | nil => rfl
  | cons x xs ih => rw [insertionSortByKey, length_insertByKey, ih]; rfl

/-- Sorted insertion preserves key-sortedness. -/
theorem pairwise_insertByKey {α : Type} (key : α → Nat) (x : α) {l : List α}
    (h : l.Pairwise (fun a b => key a ≤ key b)) :
    (insertByKey key x l).Pairwise (fun a b => key a ≤ key b) := by
  induction l with
  | nil => simp [insertByKey]
  | cons z zs ih =>
    rw [List.pairwise_cons] at h
    obtain ⟨hz, hzs⟩ := h
    rw [insertByKey]
    split_ifs with hk
    · rw [List.pairwise_cons]
      refine ⟨fun b hb => ?_, List.pairwise_cons.mpr ⟨hz, hzs⟩⟩
      rcases List.mem_cons.mp hb with rfl | hb2
      · exact hk
      · exact le_trans hk (hz b hb2)
    · rw [List.pairwise_cons]
      refine ⟨fun b hb => ?_, ih hzs⟩
      rcases List.mem_cons.mp ((mem_insertByKey key x b zs).mp hb) with rfl | hb2
      · omega
      · exact hz b hb2

/-- The insertion sort produces a key-sorted list. -/
theorem pairwise_insertionSortByKey {α : Type} (key : α → Nat) (l : List α) :
    (insertionSortByKey key l).Pairwise (fun a b => key a ≤ key b) := by
  induction l with
  | nil => simp [insertionSortByKey]
  | cons x xs ih => exact pairwise_insertByKey key x ih

/-- Every record produced by `processSlide` carries the number it was given. -/
theorem processSlide_number {num : String} {f : SlideFile} {i : SlideInfo}
    (h : processSlide num f = some i) : i.number = num := by
  rcases f with ⟨name, rels, xml⟩
  rcases rels with _ | _ | rels
  · rw [← Option.some.inj h]; rfl
  · exact absurd h (by simp [processSlide])
  · rcases xml with _ | x
    · rw [← Option.some.inj h]; rfl
    · rw [← Option.some.inj h]; rfl

/-- A slide whose relationships sidecar is not present-and-malformed always
yields a record. -/
theorem processSlide_isSome (num : String) {f : SlideFile}
    (h : f.rels ≠ RelsPart.malformed) : (processSlide num f).isSome = true := by
  rcases f with ⟨name, rels, xml⟩
  rcases rels with _ | _ | rels
  · rfl
  · exact absurd rfl h
  · rcases xml with _ | x <;> rfl

/-- The slide loop succeeds with one record per file when no sidecar is
present and malformed. -/
theorem processAllSlides_isSome_length (fs : List SlideFile)
    (h : ∀ f ∈ fs, f.rels ≠ RelsPart.malformed) :
    ∃ l, processAllSlides fs = some l ∧ l.length = fs.length := by
  induction fs with
  | nil => exact ⟨[], rfl, rfl⟩
  | cons f rest ih =>
    obtain ⟨l, hl, hlen⟩ := ih (fun g hg => h g (List.mem_cons_of_mem _ hg))
    obtain ⟨i, hi⟩ := Option.isSome_iff_exists.mp
      (processSlide_isSome (slideNumString f.name) (h f (List.mem_cons_self _ _)))
    exact ⟨i :: l, by simp [processAllSlides, hi, hl], by simp [hlen]⟩

/-- The numbers of the records produced by the slide loop are the slide
numbers of the processed files, in order. -/
theorem processAllSlides_numbers {fs : List SlideFile} {l : List SlideInfo}
    (h : processAllSlides fs = some l) :
    l.map SlideInfo.number = fs.map (fun f => slideNumString f.name) := by
  induction fs generalizing l with
  | nil => rw [← Option.some.inj h]; rfl
  | cons f rest ih =>
    cases hp : processSlide (slideNumString f.name) f with
    | none => simp [processAllSlides, hp] at h
    | some i =>
      cases hr : processAllSlides rest with
      | none => simp [processAllSlides, hp, hr] at h
      | some is =>
        simp only [processAllSlides, hp, hr] at h
        rw [← Option.some.inj h, List.map_cons, List.map_cons,
          processSlide_number hp, ih hr]

/-- Titles are unchanged by a shape that does not reach the title branch. -/
theorem stepShape_title_of_not_qualifies {st : String × List String} {sh : Shape}
    (h : ¬ qualifiesTitle sh) : (stepShape st sh).1 = st.1 := by
  unfold stepShape
  by_cases ht : shapeText sh = ""
  · simp [ht]
  · rcases hph : sh.ph_type with _ | t
    · simp [ht, hph]
    · have h1 : ¬ (t = "title" ∨ t = "ctrTitle") := by
        intro h1
        exact h ⟨h1.imp (fun e => by rw [hph, e]) (fun e => by rw [hph, e]), ht⟩
      by_cases h2 : t = "subtitle" <;> simp [ht, hph, h1, h2]

/-- Once the current title does not start with "Slide ", no shape changes
it. -/
theorem stepShape_title_of_not_slide {st : String × List String} {sh : Shape}
    (h : pyStartsWith st.1 "Slide " = false) : (stepShape st sh).1 = st.1 := by
  unfold stepShape
  by_cases ht : shapeText sh = ""
  · simp [ht]
  · rcases hph : sh.ph_type with _ | t
    · simp [ht, hph]
    · by_cases h1 : t = "title" ∨ t = "ctrTitle"
      · simp [ht, hph, h1, h]
      · by_cases h2 : t = "subtitle" <;> simp [ht, hph, h1, h2]

/-- The shape loop over an appended list runs the two parts in order. -/
theorem processShapes_append (l1 l2 : List Shape) (st : String × List String) :
    processShapes (l1 ++ l2) st = processShapes l2 (processShapes l1 st) := by
  simp [processShapes, List.foldl_append]

/-- Once the current title does not start with "Slide ", the whole shape
loop leaves it unchanged. -/
theorem processShapes_title_of_not_slide {shapes : List Shape} {st : String × List String}
    (h : pyStartsWith st.1 "Slide " = false) : (processShapes shapes st).1 = st.1 := by
  induction shapes generalizing st with
  | nil => rfl
  | cons sh rest ih =>
    have h1 : (stepShape st sh).1 = st.1 := stepShape_title_of_not_slide h
    have h2 : pyStartsWith (stepShape st sh).1 "Slide " = false := by rw [h1]; exact h
    show (processShapes rest (stepShape st sh)).1 = st.1
    rw [ih h2, h1]

/-- A run of shapes none of which reaches the title branch leaves the title
unchanged. -/
theorem processShapes_title_of_none_qualifies {shapes : List Shape} {st : String × List String}
    (h : ∀ s ∈ shapes, ¬ qualifiesTitle s) : (processShapes shapes st).1 = st.1 := by
  induction shapes generalizing st with
  | nil => rfl
  | cons sh rest ih =>
    have h1 : (stepShape st sh).1 = st.1 :=
      stepShape_title_of_not_qualifies (h sh (List.mem_cons_self _ _))
    show (processShapes rest (stepShape st sh)).1 = st.1
    rw [ih (fun s hs => h s (List.mem_cons_of_mem _ hs)), h1]

/-! ## C1: per-slide failure isolation -/

/-- C1 (amended): a slide whose XML part fails to parse is recorded with the
default content (title "Slide N", no texts, no images) and processing
continues — provided its relationships sidecar is absent or well-formed.  A
present-but-malformed relationships sidecar instead raises an uncaught parse
error (its `ET.parse` runs outside the `try` block), aborting the whole run.
When every selected slide has a readable sidecar situation, the run yields
exactly one record per selected file even if every slide XML is malformed. -/
theorem slide_failure_isolation_amended :
    (∀ (num name : String) (rels : List (String × String)),
       processSlide num ⟨name, RelsPart.ok rels, none⟩ = some (defaultSlideInfo num)) ∧
    (∀ (num name : String) (x : Option SlideXml),
       processSlide num ⟨name, RelsPart.malformed, x⟩ = none) ∧
    (∀ files : List SlideFile,
       (∀ f ∈ files, globSlideXml f.name = true →
          (slideNumSearch f.name).isSome = true ∧ f.rels ≠ RelsPart.malformed) →
       ∃ l, parse_slides_for_content files = some l ∧
         l.length = (files.filter fun f => globSlideXml f.name).length) := by
  refine ⟨fun num name rels => rfl, fun num name x => rfl, fun files h => ?_⟩
  have hall : (files.filter fun f => globSlideXml f.name).all
      (fun f => (slideNumSearch f.name).isSome) = true := by
    rw [List.all_eq_true]
    intro f hf
    rcases List.mem_filter.mp hf with ⟨hf1, hf2⟩
    exact (h f hf1 hf2).1
  have hmal : ∀ f ∈ insertionSortByKey slideSortKey (files.filter fun f => globSlideXml f.name),
      f.rels ≠ RelsPart.malformed := by
    intro f hf
    rw [mem_insertionSortByKey] at hf
    rcases List.mem_filter.mp hf with ⟨hf1, hf2⟩
    exact (h f hf1 hf2).2
  obtain ⟨l, hl, hlen⟩ := processAllSlides_isSome_length _ hmal
  refine ⟨l, ?_, ?_⟩
  · show (if (files.filter fun f => globSlideXml f.name).all
        (fun f => (slideNumSearch f.name).isSome) = true then
      processAllSlides (insertionSortByKey slideSortKey
        (files.filter fun f => globSlideXml f.name)) else none) = some l
    rw [if_pos hall]
    exact hl
  · rw [hlen, length_insertionSortByKey]

/-- Witness for C1 (amended): a two-slide run in which the first slide's XML
is malformed (sidecar present and well-formed) still completes. -/
theorem slide_failure_isolation_witness :
    (parse_slides_for_content
        [⟨"slide1.xml", RelsPart.ok [], none⟩,
         ⟨"slide2.xml", RelsPart.missing, some ⟨[], []⟩⟩]).isSome = true := by
  obtain ⟨l, hl, _⟩ := slide_failure_isolation_amended.2.2
      [⟨"slide1.xml", RelsPart.ok [], none⟩, ⟨"slide2.xml", RelsPart.missing, some ⟨[], []⟩⟩]
      (by decide)
  rw [hl]
  rfl

/-- C1 counterexample: a slide whose relationships sidecar is present but
malformed makes the whole run fail (`none`, an uncaught `ET.ParseError`)
instead of being recorded with default content. -/
theorem slide_failure_isolation_cex :
    parse_slides_for_content [⟨"slide1.xml", RelsPart.malformed, some ⟨[], []⟩⟩] = none ∧
    parse_slides_for_content [⟨"slide1.xml", RelsPart.malformed, some ⟨[], []⟩⟩] ≠
      some [defaultSlideInfo "1"] := by
  constructor
  · decide
  · decide

/-! ## C2: missing relationships sidecar -/

/-- C2 (amended): a slide whose relationships sidecar is absent is recorded
as a valid slide and processing continues, but with the DEFAULT content
(title "Slide N", no texts, no images): the slide XML is never consulted, so
title and body texts are NOT extracted as they would be with an empty
relationship mapping. -/
theorem missing_rels_default :
    ∀ (num name : String) (x : Option SlideXml),
      processSlide num ⟨name, RelsPart.missing, x⟩ = some (defaultSlideInfo num) :=
  fun _ _ _ => rfl

/-- C2 counterexample: with the sidecar absent, a slide whose XML declares
the title "Hello" is recorded with title "Slide 1"; processed with an empty
relationship mapping (sidecar present, zero relationships) the very same XML
yields title "Hello" — so absence is NOT equivalent to an empty mapping. -/
theorem missing_rels_cex :
    parse_slides_for_content
        [⟨"slide1.xml", RelsPart.missing, some ⟨[⟨some "title", [some "Hello"]⟩], []⟩⟩] =
      some [{ number := "1", images := [], title := "Slide 1", texts := [] }] ∧
    parse_slides_for_content
        [⟨"slide1.xml", RelsPart.ok [], some ⟨[⟨some "title", [some "Hello"]⟩], []⟩⟩] =
      some [{ number := "1", images := [], title := "Hello", texts := [] }] := by
  constructor
  · decide
  · decide

/-! ## C3: title assignment -/

/-- C3 (amended): a title/ctrTitle shape with non-empty stripped text sets
the slide title exactly when the CURRENT title starts with "Slide ".  The
default "Slide N" does, so the first such shape overwrites it; afterwards
the title is stable as long as it does not itself start with "Slide " — in
particular, the first qualifying shape whose text does not start with
"Slide " determines the final title.  (When the first-set title does start
with "Slide ", a later title shape overwrites it — see the
counterexample.) -/
theorem title_assignment_amended :
    (∀ (st : String × List String) (sh : Shape),
       pyStartsWith st.1 "Slide " = false → (stepShape st sh).1 = st.1) ∧
    (∀ (title0 : String) (texts0 : List String) (pre post : List Shape) (sh : Shape),
       (∀ s ∈ pre, ¬ qualifiesTitle s) → qualifiesTitle sh →
       pyStartsWith title0 "Slide " = true →
       pyStartsWith (shapeText sh) "Slide " = false →
       (processShapes (pre ++ sh :: post) (title0, texts0)).1 = shapeText sh) := by
  constructor
  · exact fun st sh h => stepShape_title_of_not_slide h
  · intro title0 texts0 pre post sh hpre hq hstart hnostart
    rw [processShapes_append]
    have ht1 : (processShapes pre (title0, texts0)).1 = title0 :=
      processShapes_title_of_none_qualifies hpre
    have hstep : (stepShape (processShapes pre (title0, texts0)) sh).1 = shapeText sh := by
      unfold stepShape
      rcases hq with ⟨hty, htext⟩
      rcases hty with h1 | h1 <;> simp [htext, h1, ht1, hstart]
    have hfinal : pyStartsWith (stepShape (processShapes pre (title0, texts0)) sh).1
        "Slide " = false := by
      rw [hstep]
      exact hnostart
    show (processShapes post (stepShape (processShapes pre (title0, texts0)) sh)).1 = _
    rw [processShapes_title_of_not_slide hfinal, hstep]

/-- Witness for C3 (amended): with a non-qualifying body shape first, a
ctrTitle shape "Overview" sets the title of a slide whose default is
"Slide 7", and a later title shape cannot change it; independently, a title
not starting with "Slide " is never overwritten. -/
theorem title_assignment_witness :
    (processShapes
        ([⟨some "body", [some "intro"]⟩] ++
          ⟨some "ctrTitle", [some "Overview"]⟩ :: [⟨some "title", [some "Ignored"]⟩])
        ("Slide 7", [])).1 = shapeText ⟨some "ctrTitle", [some "Overview"]⟩ ∧
    (stepShape ("Heading", []) ⟨some "title", [some "New"]⟩).1 = "Heading" := by
  constructor
  · exact title_assignment_amended.2 "Slide 7" [] [⟨some "body", [some "intro"]⟩]
      [⟨some "title", [some "Ignored"]⟩] ⟨some "ctrTitle", [some "Overview"]⟩
      (by decide) (by decide) (by decide) (by decide)
  · exact title_assignment_amended.1 ("Heading", []) ⟨some "title", [some "New"]⟩ (by decide)

/-- C3 counterexample: the first title shape sets the title to "Slide X",
which itself begins with "Slide ", so the second title shape overwrites it —
the final title is "Second", not the first-set "Slide X" the claim
requires. -/
theorem title_assignment_cex :
    parseSlideXml "1" []
        ⟨[⟨some "title", [some "Slide X"]⟩, ⟨some "title", [some "Second"]⟩], []⟩ =
      { number := "1", images := [], title := "Second", texts := [] } := by
  decide

/-! ## C4: slide-file selection -/

/-- C4 (amended): files of `ppt/slides` not matching the glob `slide*.xml`
are ignored (processing depends only on the glob-filtered list), and files
whose records are produced appear in nondecreasing numeric order of their
slide number.  However, a glob-matched file on which the regex
`slide(\d+)\.xml` finds no match (such as `slidefoo.xml`) makes the whole
run fail with an uncaught error instead of being rejected or ignored. -/
theorem slide_selection_amended :
    (∀ files : List SlideFile,
       parse_slides_for_content files =
         parse_slides_for_content (files.filter fun f => globSlideXml f.name)) ∧
    (∀ files : List SlideFile, ∀ f ∈ files,
       globSlideXml f.name = true → slideNumSearch f.name = none →
       parse_slides_for_content files = none) ∧
    (∀ (files : List SlideFile) (l : List SlideInfo),
       parse_slides_for_content files = some l →
       List.Pairwise (fun a b => digitsToNat a.number.data ≤ digitsToNat b.number.data) l) := by
  refine ⟨fun files => ?_, fun files f hf hg hn => ?_, fun files l hl => ?_⟩
  · simp only [parse_slides_for_content, List.filter_filter, Bool.and_self]
  · show (if (files.filter fun f => globSlideXml f.name).all
        (fun f => (slideNumSearch f.name).isSome) = true then
      processAllSlides (insertionSortByKey slideSortKey
        (files.filter fun f => globSlideXml f.name)) else none) = none
    rw [if_neg]
    intro hall
    rw [List.all_eq_true] at hall
    have := hall f (List.mem_filter.mpr ⟨hf, hg⟩)
    rw [hn] at this
    cases this
  · have hl2 : (if (files.filter fun f => globSlideXml f.name).all
        (fun f => (slideNumSearch f.name).isSome) = true then
      processAllSlides (insertionSortByKey slideSortKey
        (files.filter fun f => globSlideXml f.name)) else none) = some l := hl
    by_cases hall : (files.filter fun f => globSlideXml f.name).all
        (fun f => (slideNumSearch f.name).isSome) = true
    · rw [if_pos hall] at hl2
      have hnum := processAllSlides_numbers hl2
      have hsorted := pairwise_insertionSortByKey slideSortKey
        (files.filter fun f => globSlideXml f.name)
      have hmap : List.Pairwise (fun x y : String => digitsToNat x.data ≤ digitsToNat y.data)
          (l.map SlideInfo.number) := by
        rw [hnum, List.pairwise_map]
        exact hsorted
      rw [List.pairwise_map] at hmap
      exact hmap
    · rw [if_neg hall] at hl2
      cases hl2

/-- Witness for C4 (amended): a directory containing `slidebad.xml`
(glob-matched, regex-unmatched) makes the run fail; a well-formed directory
listing `slide10.xml` before `slide2.xml` yields records in the numeric
order 2, 10. -/
theorem slide_selection_witness :
    parse_slides_for_content
        [⟨"slide2.xml", RelsPart.missing, none⟩,
         ⟨"slidebad.xml", RelsPart.missing, none⟩] = none ∧
    List.Pairwise (fun a b => digitsToNat a.number.data ≤ digitsToNat b.number.data)
      [defaultSlideInfo "2", defaultSlideInfo "10"] := by
  constructor
  · exact slide_selection_amended.2.1
      [⟨"slide2.xml", RelsPart.missing, none⟩, ⟨"slidebad.xml", RelsPart.missing, none⟩]
      ⟨"slidebad.xml", RelsPart.missing, none⟩ (by decide) (by decide) (by decide)
  · exact slide_selection_amended.2.2
      [⟨"slide10.xml", RelsPart.missing, none⟩, ⟨"slide2.xml", RelsPart.missing, none⟩]
      [defaultSlideInfo "2", defaultSlideInfo "10"] (by decide)

/-- C4 counterexample: `slidefoo.xml` matches the glob `slide*.xml` but not
the regex `slide(\d+)\.xml`; the claim says it must not cause an error, yet
the run fails (`None.group(1)` raises inside the sort key). -/
theorem slide_selection_cex :
    globSlideXml "slidefoo.xml" = true ∧
    slideNumSearch "slidefoo.xml" = none ∧
    parse_slides_for_content [⟨"slidefoo.xml", RelsPart.missing, none⟩] = none := by
  refine ⟨by decide, by decide, by decide⟩
